import Mathlib

/-!
Verification of the pomo countdown timer (`src/lib.rs`).

Modelling conventions:
* `std::time::Duration` values are modelled as `Nat` counts of milliseconds
  (every operation the program performs on durations — `as_secs`,
  `subsec_millis`, subtraction, comparison — is millisecond-grained, except
  `parser::parse_time`, which only ever builds whole-second durations and is
  modelled in whole seconds, see below).
* `chrono::DateTime<Local>` wall-clock instants are modelled as `Int`
  milliseconds (the wall clock may predate `start`, hence signed);
  `std::time::Instant` monotone instants (used by the event logger) as `Nat`
  milliseconds.
* A Rust panic (`unwrap` on a negative `chrono::Duration`, underflow of the
  panicking `Duration - Duration`) is modelled by `Option.none`.
-/

/-- `timer::State` (lib.rs:392-397). -/
inductive State
  | Running
  | Paused
  | Finished
deriving DecidableEq, Repr

/-- `timer::Countdown` (lib.rs:399-406). `start` is the wall-clock instant
captured at construction; `duration` the immutable target; `running`/`paused`
the two accumulators. -/
structure Countdown where
  state : State
  start : Int
  duration : Nat
  running : Nat
  paused : Nat
  title : String
deriving DecidableEq, Repr

/-- `Countdown::new` (lib.rs:409-418), with the wall-clock sample
`Local::now()` taken at construction passed in explicitly as `start`. -/
def Countdown.new (duration : Nat) (start : Int) (title : String) : Countdown :=
  { state := State.Running
    start := start
    duration := duration
    running := 0
    paused := 0
    title := title }

/-- `chrono::Duration::to_std` followed by `.unwrap()` (lib.rs:423): converts
the signed elapsed interval to an unsigned duration, panicking (`none`) when
the interval is negative. -/
def toStd (d : Int) : Option Nat :=
  if d < 0 then none else some d.toNat

/-- `std::time::Duration::checked_sub` (lib.rs:433, lib.rs:532): `none` on
underflow.  The panicking `Duration - Duration` used at lib.rs:426/429 has
exactly the same domain, so it is modelled by the same function (with `none`
standing for the panic). -/
def checkedSub (a b : Nat) : Option Nat :=
  if b ≤ a then some (a - b) else none

/-- `Countdown::tick` (lib.rs:420-437).  `now` is the single wall-clock sample
`Local::now()` taken by this call.  Returns the updated countdown together
with the returned `State`; `none` models a panic (negative elapsed interval,
or underflow in an accumulator recompute). -/
def Countdown.tick (c : Countdown) (now : Int) : Option (Countdown × State) :=
  match toStd (now - c.start) with
  | none => none
  | some elapsed =>
    let recomputed : Option Countdown :=
      match c.state with
      | State.Running =>
        match checkedSub elapsed c.paused with
        | none => none
        | some r => some { c with running := r }
      | State.Paused =>
        match checkedSub elapsed c.running with
        | none => none
        | some p => some { c with paused := p }
      | State.Finished => some c
    match recomputed with
    | none => none
    | some c1 =>
      let c2 :=
        if (checkedSub c1.duration c1.running).isNone then
          { c1 with state := State.Finished }
        else c1
      some (c2, c2.state)

/-- `Countdown::toggle` (lib.rs:439-446). -/
def Countdown.toggle (c : Countdown) : Countdown :=
  { c with
    state :=
      match c.state with
      | State.Running => State.Paused
      | State.Paused => State.Running
      | State.Finished => State.Finished }

/-- `Countdown::finish` (lib.rs:448-450). -/
def Countdown.finish (c : Countdown) : Countdown :=
  { c with state := State.Finished }

/-- `duration.checked_sub(running)` as used by the renderer (lib.rs:532); the
spec calls this `remaining()`. -/
def Countdown.remaining (c : Countdown) : Option Nat :=
  checkedSub c.duration c.running

/-- A mutating call on a `Countdown`, for stating properties over arbitrary
interleavings of the three mutators. -/
inductive Op
  | tick (now : Int)
  | toggle
  | finish

/-- Run a sequence of `Op`s; `none` as soon as some `tick` panics. -/
def runOps (c : Countdown) : List Op → Option Countdown
  | [] => some c
  | Op.tick now :: rest =>
    match c.tick now with
    | none => none
    | some (c1, _) => runOps c1 rest
  | Op.toggle :: rest => runOps c.toggle rest
  | Op.finish :: rest => runOps c.finish rest

/-- `events::Event` (lib.rs:14-18): a state tagged with the monotone
`Instant::now()` timestamp (milliseconds) at which it was logged. -/
structure Event where
  state : State
  time : Nat
deriving DecidableEq, Repr

/-- `events::Logger` (lib.rs:20-24). -/
structure Logger where
  title : String
  states : List Event
deriving DecidableEq, Repr

/-- `Logger::new` (lib.rs:27-32). -/
def Logger.new (title : String) : Logger :=
  { title := title, states := [] }

/-- `Logger::log` (lib.rs:34-43), with the `Instant::now()` sample passed in
as `now`.  `states.getLast? = none` is exactly the source's `len == 0`, and
the `some` branch mirrors `states[len - 1].state != state`. -/
def Logger.log (lg : Logger) (state : State) (now : Nat) : Logger :=
  match lg.states.getLast? with
  | none => { lg with states := lg.states ++ [{ state := state, time := now }] }
  | some last =>
    if last.state ≠ state then
      { lg with states := lg.states ++ [{ state := state, time := now }] }
    else lg

/-- `events::Span` (lib.rs:50-54): the serialized form keeps the state and a
`"<seconds>.<tenths>"` string. -/
structure Span where
  state : State
  duration : String
deriving DecidableEq, Repr

/-- `Span::from` (lib.rs:56-66).  `end.time - start.time` is the (panicking)
`Instant` subtraction; `Logger` timestamps are produced by the monotone
`Instant::now()`, so adjacent log entries never underflow it and truncated
`Nat` subtraction agrees with it on every reachable log.  `as_secs` is
`ms / 1000` and `subsec_millis / 100` is `ms % 1000 / 100`. -/
def Span.fromPair (a b : Event) : Span :=
  let d := b.time - a.time
  { state := a.state
    duration := toString (d / 1000) ++ "." ++ toString (d % 1000 / 100) }

/-- `slice::windows(2)` on a list, as the list of adjacent pairs. -/
def windows2 {α : Type} (xs : List α) : List (α × α) :=
  xs.zip xs.tail

/-- `events::Formatted` (lib.rs:68-72). -/
structure Formatted where
  title : String
  events : List Span
deriving DecidableEq, Repr

/-- `Formatted::from` (lib.rs:74-85): one span per adjacent pair of events. -/
def Formatted.fromLogger (lg : Logger) : Formatted :=
  { title := lg.title
    events := (windows2 lg.states).map fun p => Span.fromPair p.1 p.2 }

/-- `Logger::format` (lib.rs:45-48), state-passing form: the receiver is a
shared borrow (`&self`), so the method returns the logger unchanged next to
the freshly built `Formatted`. -/
def Logger.format (lg : Logger) : Logger × Formatted :=
  (lg, Formatted.fromLogger lg)

/-- Fold a sequence of `log` calls (state and `Instant::now()` sample per
call) over a logger. -/
def Logger.logCalls (lg : Logger) (calls : List (State × Nat)) : Logger :=
  calls.foldl (fun l p => l.log p.1 p.2) lg

/-- Rust `str::split(':')` over the characters of a string: an empty input
yields one empty field, and every separator starts a fresh field. -/
def splitOnChar (sep : Char) : List Char → List (List Char)
  | [] => [[]]
  | c :: rest =>
    match splitOnChar sep rest with
    | [] => [[]]
    | h :: t => if c = sep then [] :: h :: t else (c :: h) :: t

/-- The `u64` range bound. -/
def U64_LIMIT : Nat := 2 ^ 64

/-- Value of a run of ASCII digits, most significant first. -/
def digitsVal (t : List Char) : Nat :=
  t.foldl (fun acc c => acc * 10 + (c.toNat - 48)) 0

/-- `str::parse::<u64>` as called by `parser::parse_part` (lib.rs:219-221):
accepts an optional leading `'+'` followed by one or more ASCII digits whose
value fits in `u64`; anything else (empty input included) is an error. -/
def parseU64 (s : List Char) : Option Nat :=
  let t :=
    match s with
    | '+' :: rest => rest
    | _ => s
  if t = [] then none
  else if t.all fun c => c.isDigit then
    if digitsVal t < U64_LIMIT then some (digitsVal t) else none
  else none

/-- `parser::parse_part` (lib.rs:219-221). -/
def parse_part (s : List Char) : Except Unit Nat :=
  match parseU64 s with
  | some v => Except.ok v
  | none => Except.error ()

/-- `parser::parse_time` (lib.rs:223-246).  The resulting `Duration` is
represented by its whole-second count (the source builds it with
`Duration::from_secs(total)`).  The `u64` expression
`hours * 3600 + minutes * 60 + seconds` overflows — the TODO at lib.rs:225
records that this panics rather than erroring — exactly when the exact total
reaches `2^64` (each intermediate value is bounded by the exact total), so
that panic is modelled by `none`. -/
def parse_time (raw : String) : Option (Except Unit Nat) :=
  match splitOnChar ':' raw.data with
  | [h, m, s] =>
    match parse_part h, parse_part m, parse_part s with
    | Except.ok hours, Except.ok minutes, Except.ok seconds =>
      let total := hours * 3600 + minutes * 60 + seconds
      if total < U64_LIMIT then some (Except.ok total) else none
    | _, _, _ => some (Except.error ())
  | [m, s] =>
    match parse_part m, parse_part s with
    | Except.ok minutes, Except.ok seconds =>
      let total := minutes * 60 + seconds
      if total < U64_LIMIT then some (Except.ok total) else none
    | _, _ => some (Except.error ())
  | [s] =>
    match parse_part s with
    | Except.ok seconds => some (Except.ok seconds)
    | Except.error _ => some (Except.error ())
  | _ => some (Except.error ())

/-- The spec's total for a list of parsed fields: Σ field × positional
multiplier (3600 / 60 / 1), defined only for 1, 2 or 3 fields.  Stated from
the spec's words, for comparison against `parse_time`. -/
def specTime : List Nat → Option Nat
  | [s] => some s
  | [m, s] => some (m * 60 + s)
  | [h, m, s] => some (h * 3600 + m * 60 + s)
  | _ => none

/-- `timer::SEC_IN_MINUTE` (lib.rs:389). -/
def SEC_IN_MINUTE : Nat := 60

/-- `timer::SEC_IN_HOUR` (lib.rs:390). -/
def SEC_IN_HOUR : Nat := SEC_IN_MINUTE * 60

/-- `format!("{:02}", n)` for the minute/second groups. -/
def pad2 (n : Nat) : String :=
  if n < 10 then "0" ++ toString n else toString n

/-- Rust `str::split("")`: an empty field, then one field per character, then
an empty field. -/
def rustSplitEmpty (s : String) : List String :=
  "" :: (s.data.map fun c => String.mk [c]) ++ [""]

/-- The `.split("").collect().join(" ").split("")` character explosion at
lib.rs:553-558 (the trailing `map(String::from)` is the identity here). -/
def explodeChars (s : String) : List String :=
  rustSplitEmpty (String.intercalate " " (rustSplitEmpty s))

/-- `timer::to_digit_strs` (lib.rs:531-562): the per-character strings fed to
`render_digit`, or `[]` when the countdown has expired. -/
def to_digit_strs (c : Countdown) : List String :=
  match checkedSub c.duration c.running with
  | some leftMs =>
    let total := c.duration / 1000
    let as_secs := leftMs / 1000
    let tmp0 := if as_secs > 0 ∨ leftMs % 1000 > 150 then as_secs + 1 else 0
    let hours := tmp0 / 3600
    let tmp1 := tmp0 % 3600
    let minutes := tmp1 / 60
    let seconds := tmp1 % 60
    let base :=
      (if total ≥ SEC_IN_HOUR then toString hours ++ ":" else "")
        ++ pad2 minutes ++ ":" ++ pad2 seconds
    explodeChars base
  | none => []

/-- The clock face showing the whole-second count `count` through the same
formatting pipeline as `to_digit_strs` (hours group present iff `withHours`).
Stated from the claim's words, for comparison against `to_digit_strs`. -/
def faceFor (withHours : Prop) [Decidable withHours] (count : Nat) :
    List String :=
  explodeChars
    ((if withHours then toString (count / 3600) ++ ":" else "")
      ++ pad2 (count % 3600 / 60) ++ ":" ++ pad2 (count % 3600 % 60))

/-- The whole-second count claim C8 says the face shows: the whole seconds of
`remaining()`, rounded up by one exactly when the sub-second remainder
exceeds 150 ms.  Stated from the claim's words. -/
def claimCount (leftMs : Nat) : Nat :=
  if leftMs % 1000 > 150 then leftMs / 1000 + 1 else leftMs / 1000

/-- The whole-second count the code shows (lib.rs:538-542): rounded up by one
whenever whole seconds remain or more than 150 ms remains, zero otherwise. -/
def codeCount (leftMs : Nat) : Nat :=
  if leftMs / 1000 > 0 ∨ leftMs % 1000 > 150 then leftMs / 1000 + 1 else 0

/-- Outcome of one pass through the `loop` body of `Pomodoro::run`. -/
inductive IterOutcome
  | breakLoop
  | continueLoop
deriving DecidableEq, Repr

instance exceptDecEq {ε α : Type} [DecidableEq ε] [DecidableEq α] :
    DecidableEq (Except ε α)
  | Except.error e, Except.error f =>
    if h : e = f then isTrue (by rw [h]) else isFalse (by simp [h])
  | Except.error _, Except.ok _ => isFalse (by simp)
  | Except.ok _, Except.error _ => isFalse (by simp)
  | Except.ok a, Except.ok b =>
    if h : a = b then isTrue (by rw [h]) else isFalse (by simp [h])

/-- Results of the fallible terminal operations a single loop iteration may
perform: the `stdin.read` (yielding the byte left in `key_bytes[0]`, `0`
when no byte arrived), `ring_once` (its bell write plus flush), and the four
`stdout` writes and final flush of the render phase. -/
structure TermOps where
  readByte : Except Unit Nat
  ringBell : Except Unit Unit
  writeClear : Except Unit Unit
  writeCard : Except Unit Unit
  writeTimer : Except Unit Unit
  writeHelp : Except Unit Unit
  flushOut : Except Unit Unit
deriving DecidableEq, Repr

/-- One iteration of the `loop` in `Pomodoro::run` (lib.rs:155-190).  `nowW`
is the wall-clock sample `tick` takes, `nowI` the monotone sample `log`
takes; `t` supplies the result of every terminal operation the iteration
would attempt.  The outer `Option` is `tick`'s panic; the `Except` layer is
the `?`-propagation of `io::Error` out of `run`.  Byte dispatch: `b'q'` is
`113`, `b' '` is `32`. -/
def runIteration (c : Countdown) (lg : Logger) (nowW : Int) (nowI : Nat)
    (t : TermOps) : Option (Except Unit (Countdown × Logger × IterOutcome)) :=
  match c.tick nowW with
  | none => none
  | some (c1, currState) =>
    let lg1 := lg.log currState nowI
    some (
      if currState = State.Finished then
        Except.ok (c1, lg1, IterOutcome.breakLoop)
      else
        match t.readByte with
        | Except.error e => Except.error e
        | Except.ok key =>
          if key = 113 then
            Except.ok (c1.finish, lg1, IterOutcome.continueLoop)
          else
            let c2 := if key = 32 then c1.toggle else c1
            let rung : Except Unit Unit :=
              if key = 32 then t.ringBell else Except.ok ()
            match rung with
            | Except.error e => Except.error e
            | Except.ok _ =>
              -- lib.rs:175: `write!(self.stdout, "{}", clear::All);` — no
              -- `?`: the io::Result is discarded, so its failure is ignored.
              let _ignored := t.writeClear
              match t.writeCard with
              | Except.error e => Except.error e
              | Except.ok _ =>
                match t.writeTimer with
                | Except.error e => Except.error e
                | Except.ok _ =>
                  match t.writeHelp with
                  | Except.error e => Except.error e
                  | Except.ok _ =>
                    match t.flushOut with
                    | Except.error e => Except.error e
                    | Except.ok _ =>
                      Except.ok (c2, lg1, IterOutcome.continueLoop))

/-- C10: `tick()` is total only under the precondition that the wall-clock
sample is not earlier than `start_instant` — a sample before `start` panics
in every state — and under that precondition the conversion of the elapsed
interval to an unsigned duration (`to_std().unwrap()`, lib.rs:423) cannot
fail, whatever the state and accumulator values. -/
theorem tick_total_iff_now_ge_start (c : Countdown) (now : Int) :
    (now < c.start → c.tick now = none)
      ∧ (c.start ≤ now →
          toStd (now - c.start) = some (now - c.start).toNat) := by
  constructor
  · intro hlt
    rw [Countdown.tick, toStd, if_pos (by omega)]
  · intro hle
    rw [toStd, if_neg (by omega)]

/-- C10 witness: a sample one millisecond before `start` panics; a sample
three milliseconds after `start` converts successfully. -/
theorem tick_total_iff_now_ge_start_witness :
    (Countdown.new 5000 0 "").tick (-1) = none
      ∧ toStd ((3 : Int) - (Countdown.new 5000 0 "").start)
          = some ((3 : Int) - (Countdown.new 5000 0 "").start).toNat :=
  ⟨(tick_total_iff_now_ge_start (Countdown.new 5000 0 "") (-1)).1 (by decide),
   (tick_total_iff_now_ge_start (Countdown.new 5000 0 "") 3).2 (by decide)⟩

/-- C2 counterexample: with a 5000 ms target and a wall-clock sample exactly
5000 ms after `start`, the recomputed `running_accum` equals
`target_duration`, yet `tick` returns `Running`, not `Finished`: the
subtraction `target_duration - running_accum` yields `Some(0)` at equality
rather than underflowing. -/
theorem tick_at_equality_stays_running :
    (Countdown.new 5000 0 "").tick 5000
        = some (Countdown.mk State.Running 0 5000 5000 0 "", State.Running)
      ∧ (Countdown.mk State.Running 0 5000 5000 0 "").running
          = (Countdown.mk State.Running 0 5000 5000 0 "").duration
      ∧ State.Running ≠ State.Finished :=
  ⟨by decide, rfl, by decide⟩

/-- C2 (amended): a completed `tick` returns the possibly-just-updated state,
and that state is `Finished` exactly when the countdown was already finished
or the freshly recomputed `running_accum` strictly exceeds `target_duration`
(the only case where `target_duration - running_accum` underflows);
`running_accum` equal to `target_duration` does not finish the countdown. -/
theorem tick_finished_iff_strict_overrun (c : Countdown) (now : Int)
    (c' : Countdown) (s : State) (h : c.tick now = some (c', s)) :
    s = c'.state
      ∧ (s = State.Finished
          ↔ c.state = State.Finished ∨ c.duration < c'.running) := by
  cases htos : toStd (now - c.start) with
  | none => simp [Countdown.tick, htos] at h
  | some elapsed =>
    cases hst : c.state with
    | Running =>
      cases hcs : checkedSub elapsed c.paused with
      | none => simp [Countdown.tick, htos, hst, hcs] at h
      | some r =>
        simp only [Countdown.tick, htos, hst, hcs] at h
        split at h <;>
          rename_i hfin <;>
          simp only [Option.some.injEq, Prod.mk.injEq] at h <;>
          obtain ⟨rfl, rfl⟩ := h <;>
          refine ⟨rfl, ?_⟩ <;>
          simp only [checkedSub, Option.isNone_iff_eq_none, ite_eq_right_iff,
            reduceCtorEq, imp_false] at hfin <;>
          simp <;>
          omega
    | Paused =>
      cases hcs : checkedSub elapsed c.running with
      | none => simp [Countdown.tick, htos, hst, hcs] at h
      | some p =>
        simp only [Countdown.tick, htos, hst, hcs] at h
        split at h <;>
          rename_i hfin <;>
          simp only [Option.some.injEq, Prod.mk.injEq] at h <;>
          obtain ⟨rfl, rfl⟩ := h <;>
          refine ⟨rfl, ?_⟩ <;>
          simp only [checkedSub, Option.isNone_iff_eq_none, ite_eq_right_iff,
            reduceCtorEq, imp_false] at hfin <;>
          simp <;>
          omega
    | Finished =>
      simp only [Countdown.tick, htos, hst] at h
      split at h <;>
        rename_i hfin <;>
        simp only [Option.some.injEq, Prod.mk.injEq] at h <;>
        obtain ⟨rfl, rfl⟩ := h <;>
        refine ⟨rfl, ?_⟩ <;>
        simp [hst]

/-- C2 witness: a running countdown over 5000 ms ticked 6000 ms after start
overruns strictly and finishes. -/
theorem tick_finished_iff_strict_overrun_witness :
    State.Finished = (Countdown.mk State.Finished 0 5000 6000 0 "").state
      ∧ (State.Finished = State.Finished
          ↔ (Countdown.new 5000 0 "").state = State.Finished
            ∨ (Countdown.new 5000 0 "").duration
                < (Countdown.mk State.Finished 0 5000 6000 0 "").running) :=
  tick_finished_iff_strict_overrun (Countdown.new 5000 0 "") 6000
    (Countdown.mk State.Finished 0 5000 6000 0 "") State.Finished (by decide)

/-- C1 counterexample: a zero-length countdown finishes at its first tick
(1000 ms after start) with `running_accum = 1000`; the next tick, taken
2000 ms after start, performs no recompute, so afterwards
`running_accum + paused_accum = 1000 ≠ 2000 = now - start_instant` — the
claimed identity fails at ticks taken in the `Finished` state. -/
theorem tick_sum_invariant_fails_when_finished :
    (Countdown.new 0 0 "").tick 1000
        = some (Countdown.mk State.Finished 0 0 1000 0 "", State.Finished)
      ∧ (Countdown.mk State.Finished 0 0 1000 0 "").tick 2000
          = some (Countdown.mk State.Finished 0 0 1000 0 "", State.Finished)
      ∧ ¬ (((Countdown.mk State.Finished 0 0 1000 0 "").running : Int)
            + (Countdown.mk State.Finished 0 0 1000 0 "").paused
            = 2000 - (Countdown.mk State.Finished 0 0 1000 0 "").start) :=
  ⟨by decide, by decide, by decide⟩

/-- C1 (amended): immediately after every completed `tick` that begins in the
`Running` or `Paused` state — whatever interleaving of `toggle` calls
produced that state and whatever the accumulators hold — the accumulators
satisfy `running_accum + paused_accum = now - start_instant` exactly, where
`now` is the single wall-clock sample taken by that tick (both accumulators
are recomputed from that one fresh elapsed sample); a tick that begins in the
`Finished` state performs no recompute and the identity can fail there. -/
theorem tick_accumulator_sum (c : Countdown) (now : Int) (c' : Countdown)
    (s : State) (hstate : c.state ≠ State.Finished)
    (h : c.tick now = some (c', s)) :
    (c'.running : Int) + c'.paused = now - c.start := by
  cases htos : toStd (now - c.start) with
  | none => simp [Countdown.tick, htos] at h
  | some elapsed =>
    have hfacts : ¬ now - c.start < 0 ∧ (now - c.start).toNat = elapsed := by
      rw [toStd] at htos
      split at htos
      · cases htos
      · exact ⟨by assumption, Option.some.inj htos⟩
    obtain ⟨hge, helapsed⟩ := hfacts
    cases hst : c.state with
    | Finished => exact absurd hst hstate
    | Running =>
      cases hcs : checkedSub elapsed c.paused with
      | none => simp [Countdown.tick, htos, hst, hcs] at h
      | some r =>
        have hr : c.paused ≤ elapsed ∧ elapsed - c.paused = r := by
          rw [checkedSub] at hcs
          split at hcs
          · exact ⟨by assumption, Option.some.inj hcs⟩
          · cases hcs
        obtain ⟨hple, hrval⟩ := hr
        simp only [Countdown.tick, htos, hst, hcs] at h
        split at h <;>
          simp only [Option.some.injEq, Prod.mk.injEq] at h <;>
          obtain ⟨rfl, rfl⟩ := h <;>
          dsimp only <;>
          omega
    | Paused =>
      cases hcs : checkedSub elapsed c.running with
      | none => simp [Countdown.tick, htos, hst, hcs] at h
      | some p =>
        have hp : c.running ≤ elapsed ∧ elapsed - c.running = p := by
          rw [checkedSub] at hcs
          split at hcs
          · exact ⟨by assumption, Option.some.inj hcs⟩
          · cases hcs
        obtain ⟨hple, hpval⟩ := hp
        simp only [Countdown.tick, htos, hst, hcs] at h
        split at h <;>
          simp only [Option.some.injEq, Prod.mk.injEq] at h <;>
          obtain ⟨rfl, rfl⟩ := h <;>
          dsimp only <;>
          omega

/-- C1 witness: a fresh 5000 ms countdown ticked 1000 ms after start ends the
tick with `running + paused = 1000 = now - start`. -/
theorem tick_accumulator_sum_witness :
    ((Countdown.mk State.Running 0 5000 1000 0 "").running : Int)
        + (Countdown.mk State.Running 0 5000 1000 0 "").paused
      = 1000 - (Countdown.new 5000 0 "").start :=
  tick_accumulator_sum (Countdown.new 5000 0 "") 1000
    (Countdown.mk State.Running 0 5000 1000 0 "") State.Running
    (by decide) (by decide)

/-- C6: `Finished` is absorbing: from a finished countdown, `toggle` is a
complete no-op (the whole record, accumulators included, is unchanged),
`finish` changes nothing, a completed `tick` performs no recompute and
returns the countdown unchanged with state `Finished`, and no sequence of
`tick`/`toggle`/`finish` calls ever changes the countdown at all. -/
theorem finished_absorbing (c : Countdown) (hfin : c.state = State.Finished) :
    c.toggle = c
      ∧ c.finish = c
      ∧ (∀ now r, c.tick now = some r → r = (c, State.Finished))
      ∧ (∀ ops c', runOps c ops = some c' → c' = c) := by
  obtain ⟨st, sta, d, ru, pa, ti⟩ := c
  dsimp at hfin
  subst hfin
  have htoggle : (Countdown.mk State.Finished sta d ru pa ti).toggle
      = Countdown.mk State.Finished sta d ru pa ti := rfl
  have hfinish : (Countdown.mk State.Finished sta d ru pa ti).finish
      = Countdown.mk State.Finished sta d ru pa ti := rfl
  have htick : ∀ now r,
      (Countdown.mk State.Finished sta d ru pa ti).tick now = some r →
      r = (Countdown.mk State.Finished sta d ru pa ti, State.Finished) := by
    intro now r h
    cases htos : toStd (now - sta) with
    | none => simp [Countdown.tick, htos] at h
    | some e =>
      simp only [Countdown.tick, htos] at h
      split at h <;> exact (Option.some.inj h).symm
  refine ⟨htoggle, hfinish, htick, ?_⟩
  intro ops
  induction ops with
  | nil => intro c' h; exact (Option.some.inj h).symm
  | cons op rest ih =>
    intro c' h
    cases op with
    | tick now =>
      rw [runOps] at h
      cases htk : (Countdown.mk State.Finished sta d ru pa ti).tick now with
      | none => rw [htk] at h; cases h
      | some r =>
        obtain ⟨r1, r2⟩ := r
        injection htick now (r1, r2) htk with h1 h2
        rw [htk] at h
        subst h1
        exact ih c' h
    | toggle =>
      rw [runOps, htoggle] at h
      exact ih c' h
    | finish =>
      rw [runOps, hfinish] at h
      exact ih c' h

/-- C6 witness: a concrete finished countdown is unchanged by `toggle` and by
the call sequence toggle, tick, finish. -/
theorem finished_absorbing_witness :
    (Countdown.mk State.Finished 0 5000 6000 0 "").toggle
        = Countdown.mk State.Finished 0 5000 6000 0 ""
      ∧ runOps (Countdown.mk State.Finished 0 5000 6000 0 "")
          [Op.toggle, Op.tick 7000, Op.finish]
          = some (Countdown.mk State.Finished 0 5000 6000 0 "") :=
  ⟨(finished_absorbing (Countdown.mk State.Finished 0 5000 6000 0 "")
      (by decide)).1,
   by decide⟩

theorem log_fixed_of_last_eq (lg : Logger) (s : State) (t : Nat)
    (h : lg.states.getLast?.map Event.state = some s) : lg.log s t = lg := by
  cases hgl : lg.states.getLast? with
  | none => rw [hgl] at h; cases h
  | some last =>
    rw [hgl] at h
    have hs : last.state = s := Option.some.inj (by simpa using h)
    simp [Logger.log, hgl, hs]

theorem log_appends_of_guard (lg : Logger) (s : State) (t : Nat)
    (h : lg.states.getLast?.map Event.state ≠ some s) :
    (lg.log s t).states = lg.states ++ [{ state := s, time := t }] := by
  cases hgl : lg.states.getLast? with
  | none => simp [Logger.log, hgl]
  | some last =>
    rw [hgl] at h
    have hs : last.state ≠ s := by simpa using h
    simp [Logger.log, hgl, hs]

theorem log_preserves_distinct (lg : Logger) (s : State) (t : Nat)
    (h : List.Chain' (fun a b : Event => a.state ≠ b.state) lg.states) :
    List.Chain' (fun a b : Event => a.state ≠ b.state) (lg.log s t).states := by
  by_cases hg : lg.states.getLast?.map Event.state = some s
  · rw [log_fixed_of_last_eq lg s t hg]; exact h
  · rw [log_appends_of_guard lg s t hg]
    refine List.chain'_append.mpr ⟨h, List.chain'_singleton _, ?_⟩
    intro x hx y hy
    simp only [List.head?_cons, Option.mem_def, Option.some.injEq] at hy
    subst hy
    intro hxs
    exact hg (by rw [Option.mem_def] at hx; rw [hx]; simp [hxs])

theorem logCalls_fixed (s : State) (ts : List Nat) (lg : Logger)
    (h : lg.states.getLast?.map Event.state = some s) :
    Logger.logCalls lg (ts.map fun t => (s, t)) = lg := by
  induction ts generalizing lg with
  | nil => rfl
  | cons t rest ih =>
    simp only [List.map_cons, Logger.logCalls, List.foldl_cons]
    rw [show lg.log (s, t).1 (s, t).2 = lg from log_fixed_of_last_eq lg s t h]
    exact ih lg h

theorem logCalls_preserves_distinct (calls : List (State × Nat)) (lg : Logger)
    (h : List.Chain' (fun a b : Event => a.state ≠ b.state) lg.states) :
    List.Chain' (fun a b : Event => a.state ≠ b.state)
      (Logger.logCalls lg calls).states := by
  induction calls generalizing lg with
  | nil => exact h
  | cons p rest ih => exact ih _ (log_preserves_distinct lg p.1 p.2 h)

/-- C5: `log(state)` appends `{state, now}` iff the log is empty or the last
entry's state differs from the given state; repeated calls with an unchanged
state from a fresh logger append exactly one event in total; the alternating
sequence Running, Paused, Running, Finished appends exactly four events; and
no two adjacent events of any reachable log carry the same state. -/
theorem logger_log_dedup :
    (∀ (lg : Logger) (s : State) (t : Nat),
        ((lg.states = [] ∨ lg.states.getLast?.map Event.state ≠ some s) →
          (lg.log s t).states = lg.states ++ [{ state := s, time := t }])
        ∧ (lg.states.getLast?.map Event.state = some s → lg.log s t = lg))
      ∧ (∀ (title : String) (s : State) (t0 : Nat) (ts : List Nat),
          (Logger.logCalls (Logger.new title)
              ((t0 :: ts).map fun t => (s, t))).states.length = 1)
      ∧ (∀ (title : String) (t1 t2 t3 t4 : Nat),
          (((((Logger.new title).log State.Running t1).log State.Paused
              t2).log State.Running t3).log State.Finished t4).states.length
            = 4)
      ∧ (∀ (title : String) (calls : List (State × Nat)),
          List.Chain' (fun a b : Event => a.state ≠ b.state)
            (Logger.logCalls (Logger.new title) calls).states) := by
  refine ⟨fun lg s t => ⟨fun hor => ?_, log_fixed_of_last_eq lg s t⟩,
    fun title s t0 ts => ?_, fun title t1 t2 t3 t4 => rfl,
    fun title calls =>
      logCalls_preserves_distinct calls (Logger.new title) (by simp [Logger.new])⟩
  · apply log_appends_of_guard
    rcases hor with hnil | hne
    · simp [hnil]
    · exact hne
  · simp only [List.map_cons, Logger.logCalls, List.foldl_cons]
    have h1 : (Logger.new title).log s t0
        = Logger.mk title [{ state := s, time := t0 }] := rfl
    rw [h1]
    have h2 : List.foldl (fun l p => l.log p.1 p.2)
          (Logger.mk title [{ state := s, time := t0 }])
          (ts.map fun t => (s, t))
        = Logger.mk title [{ state := s, time := t0 }] :=
      logCalls_fixed s ts _ rfl
    rw [h2]
    rfl

/-- C5 witness: logging `Running` into a fresh logger appends the event. -/
theorem logger_log_dedup_witness :
    ((Logger.new "t").log State.Running 5).states
      = (Logger.new "t").states ++ [{ state := State.Running, time := 5 }] :=
  (logger_log_dedup.1 (Logger.new "t") State.Running 5).1 (Or.inl rfl)

theorem windows2_map_getElem? {α β : Type} (f : α → α → β) :
    ∀ (xs : List α) (i : Nat),
      ((windows2 xs).map fun p => f p.1 p.2)[i]?
        = xs[i]?.bind fun a => xs[i + 1]?.map fun b => f a b
  | [], i => by simp [windows2]
  | [x], i => by cases i <;> simp [windows2]
  | x :: y :: rest, 0 => by simp [windows2]
  | x :: y :: rest, (i + 1) => by
      simpa [windows2] using windows2_map_getElem? f (y :: rest) i

/-- C3: `format` on an n-event log (n ≥ 1) emits exactly n−1 spans — the i-th
span pairing adjacent events i and i+1, with the earlier event's state and
their timestamp difference (serialized at tenth-second resolution) — so the
final event starts no span; on the example log Running at 0 s, Paused at
10 s, Running at 15 s, Finished at 25 s it yields exactly the spans
(Running, 10.0), (Paused, 5.0), (Running, 10.0). -/
theorem format_adjacent_spans (lg : Logger) (h : 1 ≤ lg.states.length) :
    (Formatted.fromLogger lg).events.length = lg.states.length - 1
      ∧ (∀ i : Nat, (Formatted.fromLogger lg).events[i]?
          = lg.states[i]?.bind fun a =>
              lg.states[i + 1]?.map fun b => Span.fromPair a b)
      ∧ Formatted.fromLogger
            (Logger.mk "t"
              [{ state := State.Running, time := 0 },
               { state := State.Paused, time := 10000 },
               { state := State.Running, time := 15000 },
               { state := State.Finished, time := 25000 }])
          = Formatted.mk "t"
              [{ state := State.Running, duration := "10.0" },
               { state := State.Paused, duration := "5.0" },
               { state := State.Running, duration := "10.0" }] := by
  refine ⟨?_, fun i => windows2_map_getElem? Span.fromPair lg.states i, by decide⟩
  simp only [Formatted.fromLogger, List.length_map, windows2, List.length_zip,
    List.length_tail]
  omega

/-- C3 witness: on the two-event log the single span is produced. -/
theorem format_adjacent_spans_witness :
    (Formatted.fromLogger
        (Logger.mk "w" [{ state := State.Running, time := 0 },
                        { state := State.Finished, time := 1500 }])).events.length
      = 2 - 1 :=
  (format_adjacent_spans
      (Logger.mk "w" [{ state := State.Running, time := 0 },
                      { state := State.Finished, time := 1500 }])
      (by decide)).1

/-- C9: `Logger::format` is pure and idempotent at the interface: the `&self`
receiver returns the logger unchanged (title and event log intact), and a
second `format` with no intervening `log` call produces the identical
`Formatted` payload — same title, same span states and duration strings. -/
theorem format_pure_idempotent (lg : Logger) :
    (lg.format).1 = lg ∧ ((lg.format).1.format).2 = (lg.format).2 :=
  ⟨rfl, rfl⟩

/-- C8 counterexample: a countdown with 10000 ms target and 5000 ms consumed
has `remaining()` of exactly 5 s — sub-second remainder 0 ms, not above
150 ms, so the claim predicts the unrounded count 5 — yet the rendered face
is not the face for count 5: the code shows 6, rounding up because whole
seconds remain. -/
theorem face_not_claim_count :
    (Countdown.mk State.Running 0 10000 5000 0 "").remaining = some 5000
      ∧ 5000 % 1000 ≤ 150
      ∧ claimCount 5000 = 5
      ∧ to_digit_strs (Countdown.mk State.Running 0 10000 5000 0 "")
          ≠ faceFor
              ((Countdown.mk State.Running 0 10000 5000 0 "").duration / 1000
                ≥ SEC_IN_HOUR)
              (claimCount 5000) :=
  ⟨by decide, by decide, by decide, by decide⟩

/-- C8 (amended): for every non-expired countdown (`remaining()` is `Some`)
the rendered clock face shows the whole-second count of `remaining()`
rounded up by one exactly when whole seconds remain or the sub-second
remainder exceeds 150 ms, and shows 0 otherwise (only within the final
150 ms); the hours group appears exactly when the target duration is at
least one hour. -/
theorem face_shows_code_count (c : Countdown) (leftMs : Nat)
    (h : c.remaining = some leftMs) :
    to_digit_strs c
      = faceFor (c.duration / 1000 ≥ SEC_IN_HOUR) (codeCount leftMs) := by
  rw [Countdown.remaining] at h
  simp only [to_digit_strs, h, faceFor, codeCount]

/-- C8 witness: the countdown with 5000 ms remaining renders the face for the
rounded-up count 6. -/
theorem face_shows_code_count_witness :
    to_digit_strs (Countdown.mk State.Running 0 10000 5000 0 "")
      = faceFor
          ((Countdown.mk State.Running 0 10000 5000 0 "").duration / 1000
            ≥ SEC_IN_HOUR)
          (codeCount 5000) :=
  face_shows_code_count (Countdown.mk State.Running 0 10000 5000 0 "") 5000
    (by decide)

/-- C7: the code at the claim's failing input: an iteration that begins in
the `Running` state, reads no byte, and whose clear-screen write (the
`write!` at lib.rs:175, whose `io::Result` is discarded) fails while every
other terminal operation succeeds, completes with `Ok` and continues the
loop — the write failure is ignored, not propagated — whereas the same
iteration with a failing final flush does propagate the error. -/
theorem iteration_ignores_clear_write_error :
    (TermOps.mk (Except.ok 0) (Except.ok ()) (Except.error ())
        (Except.ok ()) (Except.ok ()) (Except.ok ()) (Except.ok ())).writeClear
        = Except.error ()
      ∧ runIteration (Countdown.new 5000 0 "") (Logger.new "") 1000 1000
          (TermOps.mk (Except.ok 0) (Except.ok ()) (Except.error ())
            (Except.ok ()) (Except.ok ()) (Except.ok ()) (Except.ok ()))
        = some (Except.ok
            (Countdown.mk State.Running 0 5000 1000 0 "",
             Logger.mk "" [{ state := State.Running, time := 1000 }],
             IterOutcome.continueLoop))
      ∧ runIteration (Countdown.new 5000 0 "") (Logger.new "") 1000 1000
          (TermOps.mk (Except.ok 0) (Except.ok ()) (Except.ok ())
            (Except.ok ()) (Except.ok ()) (Except.ok ()) (Except.error ()))
        = some (Except.error ()) :=
  ⟨by decide, by decide, by decide⟩

/-- C4: `parse_time` splits on `:` into fields read most-significant-first
(1 field seconds, 2 fields minutes:seconds, 3 fields
hours:minutes:seconds), returns the weighted sum Σ field × (3600/60/1) of
the parsed fields, and returns `ParseError` exactly when some field fails
`u64` parsing or the field count is outside 1..3; fields are not
range-checked (minutes of 90 are accepted); and the concrete examples:
"5" is 5 s, "1:30" is 90 s, "1:00:00" is 3600 s, "90:00" is 5400 s,
while "abc" and "" both fail. -/
theorem parse_time_spec :
    (∀ raw : String,
        (parse_time raw = some (Except.error ())
          ↔ (splitOnChar ':' raw.data).length = 0
            ∨ 3 < (splitOnChar ':' raw.data).length
            ∨ ∃ p ∈ splitOnChar ':' raw.data, parseU64 p = none)
        ∧ ∀ d : Nat, parse_time raw = some (Except.ok d) →
            ∃ vals : List Nat,
              (splitOnChar ':' raw.data).mapM parseU64 = some vals
                ∧ specTime vals = some d)
      ∧ parse_time "5" = some (Except.ok 5)
      ∧ parse_time "1:30" = some (Except.ok 90)
      ∧ parse_time "1:00:00" = some (Except.ok 3600)
      ∧ parse_time "90:00" = some (Except.ok 5400)
      ∧ parse_time "abc" = some (Except.error ())
      ∧ parse_time "" = some (Except.error ()) := by
  refine ⟨fun raw => ?_, by decide, by decide, by decide, by decide,
    by decide, by decide⟩
  rcases hp : splitOnChar ':' raw.data with _ | ⟨a, _ | ⟨b, _ | ⟨c, _ | ⟨d, rest⟩⟩⟩⟩
  · constructor
    · simp [parse_time, hp]
    · intro d hd
      simp [parse_time, hp] at hd
  · cases hpa : parseU64 a with
    | none =>
      constructor
      · simp [parse_time, hp, parse_part, hpa]
      · intro d hd
        simp [parse_time, hp, parse_part, hpa] at hd
    | some v =>
      constructor
      · simp [parse_time, hp, parse_part, hpa]
      · intro d hd
        simp only [parse_time, hp, parse_part, hpa, Option.some.injEq] at hd
        refine ⟨[v], by simp [List.mapM, List.mapM.loop, hpa], ?_⟩
        simp only [specTime]
        exact congrArg some (Except.ok.inj hd)
  · cases hpa : parseU64 a with
    | none =>
      constructor
      · simp [parse_time, hp, parse_part, hpa]
      · intro d hd
        cases hpb : parseU64 b <;>
          simp [parse_time, hp, parse_part, hpa, hpb] at hd
    | some va =>
      cases hpb : parseU64 b with
      | none =>
        constructor
        · simp [parse_time, hp, parse_part, hpa, hpb]
        · intro d hd
          simp [parse_time, hp, parse_part, hpa, hpb] at hd
      | some vb =>
        constructor
        · simp only [parse_time, hp, parse_part, hpa, hpb]
          split <;> simp [hpa, hpb]
        · intro d hd
          simp only [parse_time, hp, parse_part, hpa, hpb] at hd
          split at hd
          · refine ⟨[va, vb], by simp [List.mapM, List.mapM.loop, hpa, hpb], ?_⟩
            simp only [specTime]
            exact congrArg some (Except.ok.inj (Option.some.inj hd))
          · cases hd
  · cases hpa : parseU64 a with
    | none =>
      constructor
      · simp [parse_time, hp, parse_part, hpa]
      · intro d hd
        cases hpb : parseU64 b <;> cases hpc : parseU64 c <;>
          simp [parse_time, hp, parse_part, hpa, hpb, hpc] at hd
    | some va =>
      cases hpb : parseU64 b with
      | none =>
        constructor
        · simp [parse_time, hp, parse_part, hpa, hpb]
        · intro d hd
          cases hpc : parseU64 c <;>
            simp [parse_time, hp, parse_part, hpa, hpb, hpc] at hd
      | some vb =>
        cases hpc : parseU64 c with
        | none =>
          constructor
          · simp [parse_time, hp, parse_part, hpa, hpb, hpc]
          · intro d hd
            simp [parse_time, hp, parse_part, hpa, hpb, hpc] at hd
        | some vc =>
          constructor
          · simp only [parse_time, hp, parse_part, hpa, hpb, hpc]
            split <;> simp [hpa, hpb, hpc]
          · intro d hd
            simp only [parse_time, hp, parse_part, hpa, hpb, hpc] at hd
            split at hd
            · refine ⟨[va, vb, vc],
                by simp [List.mapM, List.mapM.loop, hpa, hpb, hpc], ?_⟩
              simp only [specTime]
              exact congrArg some (Except.ok.inj (Option.some.inj hd))
            · cases hd
  · constructor
    · simp [parse_time, hp]
    · intro d hd
      simp [parse_time, hp] at hd

/-- C4 witness: applying the characterization to the input "1:30". -/
theorem parse_time_spec_witness :
    ∃ vals : List Nat,
      (splitOnChar ':' ("1:30").data).mapM parseU64 = some vals
        ∧ specTime vals = some 90 :=
  (parse_time_spec.1 "1:30").2 90 (by decide)
